import Mathlib

/-!
Shallow embedding of the xenon USB device-controller driver
(`firmware/hal/src/usbd.rs`) and of the host tool's log-drain routine
(`host/semidap/src/main.rs`).

Register writes and hardware tasks performed by the driver are reified as
`Action` values.  Each interrupt handler becomes a pure function from
(current state, decoded event, register inputs) to a `Step`: either a
normal outcome carrying the new state and the emitted actions, or `fatal`,
the `unreachable()` / `todo()` path which clears the USB pull-up
(`disconnect()`) and halts (`semidap::panic!`).  The embedding follows the
debug-assertion build, in which the `#[cfg(debug_assertions)]` checks are
active.
-/

namespace Xenon

/-- Register writes and hardware tasks emitted by the driver. -/
inductive Action where
  | connect
  | enableUsb
  | ep0stall
  | ep0status
  | epinenBulkEnable
  | epoutenBulkEnable
  | sizeEpout1Write (v : Nat)
  | startEpin0Task
  | epout1MaxcntWrite (v : Nat)
  | startEpout1Task (size : Nat)
  | epin1Free
  | lowPowerEnter
  | lowPowerLeave
  deriving DecidableEq, Repr

/-- Outcome of one handler invocation: a normal step with the new state and
the emitted actions, or the fatal `unreachable()`/`todo()` path (disconnect
from the bus, then halt). -/
inductive Step (σ : Type) where
  | ok (s : σ) (acts : List Action)
  | fatal
  deriving DecidableEq, Repr

/-- Value of the `USBPULLUP` register after a handler invocation, given its
value `p` before: `fatal` runs `disconnect()` which zeroes the register;
the only write that sets it is `connect()`. -/
def pullupAfter {σ : Type} (p : Bool) : Step σ → Bool
  | .fatal => false
  | .ok _ acts => if Action.connect ∈ acts then true else p

/-- The state reached by a step, if it did not halt. -/
def stateOf {σ : Type} : Step σ → Option σ
  | .fatal => none
  | .ok s _ => some s

/-- `PowerEvent` (`usbd.rs`): the decoded pending `POWER` peripheral event. -/
inductive PowerEvent where
  | USBDETECTED
  | USBREMOVED
  | USBPWRRDY
  deriving DecidableEq, Repr

/-- `PowerState` (`usbd.rs`). -/
inductive PowerState where
  | Off
  | RampUp (clock power usb : Bool)
  | Ready
  deriving DecidableEq, Repr

/-- The shared tail of the `RampUp` arms: `if *clock && *power && *usb`
then go `Ready` and `connect()`. -/
def rampUpAdvance (c p u : Bool) : Step PowerState :=
  if c && p && u then .ok .Ready [.connect] else .ok (.RampUp c p u) []

/-- The `POWER` interrupt handler (`fn POWER` in `usbd.rs`).  `ev` is the
result of `PowerEvent::next()`; `clockStable` is `clock::is_stable()`.
A `none` event propagated through `event?` is the early `return None`,
modeled as `ok` with the state unchanged and no actions. -/
def powerTask (s : PowerState) (ev : Option PowerEvent) (clockStable : Bool) :
    Step PowerState :=
  match s with
  | .Off =>
    match ev with
    | none => .ok .Off []
    | some e =>
      if e ≠ .USBDETECTED then .fatal
      else .ok (.RampUp clockStable false false) [.enableUsb]
  | .RampUp c p u =>
    if !c && ev.isNone then
      rampUpAdvance true p u
    else if !p then
      match ev with
      | none => .ok (.RampUp c p u) []
      | some e => if e = .USBPWRRDY then rampUpAdvance c true u else .fatal
    else .fatal
  | .Ready => .fatal

/-- `usb2::State` (external `usb2` crate, used as plain data). -/
inductive Usb2State where
  | Default
  | Address
  | Configured (configuration : Nat)
  deriving DecidableEq, Repr

/-- `Ep0State` (`usbd.rs`): continuation state of a control-read transfer. -/
inductive Ep0State where
  | Idle
  | Write (leftover : Nat)
  deriving DecidableEq, Repr

/-- `EpOut1State` (`usbd.rs`). -/
inductive EpOut1State where
  | Idle
  | DataReady
  | BufferReady
  | TransferInProgress
  deriving DecidableEq, Repr

/-- The endpoint-0 IN hardware registers touched by `start_epin0` /
`continue_epin0`: the `SHORTS.EP0DATADONE_EP0STATUS` bit, `EPIN0_MAXCNT`,
and `EPIN0_PTR` (as an offset from the start of the descriptor bytes). -/
structure Ep0Hw where
  short : Bool
  maxcnt : Nat
  ptrOff : Nat
  deriving DecidableEq, Repr

/-- `MAX_PACKET_SIZE0`, from the generated descriptor table (`descs.rs`);
the spec fixes the endpoint-0 max packet size at 64 bytes. -/
def MAX_PACKET_SIZE0 : Nat := 64

/-- `NCONFIGS` (`usbd.rs`). -/
def NCONFIGS : Nat := 1

/-- `fn start_epin0` (`usbd.rs`).  Only the length of the descriptor slice
matters here; the slice itself enters the hardware through `EPIN0_PTR`,
modeled as the offset 0.  `bytes.len() as u16` truncates modulo 2^16. -/
def start_epin0 (bytesLen : Nat) : Ep0State × Ep0Hw × List Action :=
  let len := bytesLen % 65536
  if len ≤ MAX_PACKET_SIZE0 then
    (.Write 0, { short := true, maxcnt := len, ptrOff := 0 }, [.startEpin0Task])
  else
    (.Write (len - MAX_PACKET_SIZE0),
      { short := false, maxcnt := MAX_PACKET_SIZE0, ptrOff := 0 },
      [.startEpin0Task])

/-- `fn continue_epin0` (`usbd.rs`).  `EPIN0_PTR` is advanced by
`MAX_PACKET_SIZE0` in both branches; in the final (`leftover ≤ 64`) branch
the short-packet/auto-status shortcut is armed and `EPIN0_MAXCNT` is set to
`leftover`; otherwise both registers keep their previous value. -/
def continue_epin0 (leftover : Nat) (hw : Ep0Hw) : Nat × Ep0Hw × List Action :=
  if leftover ≤ MAX_PACKET_SIZE0 then
    (0, { short := true, maxcnt := leftover, ptrOff := hw.ptrOff + MAX_PACKET_SIZE0 },
      [.startEpin0Task])
  else
    (leftover - MAX_PACKET_SIZE0, { hw with ptrOff := hw.ptrOff + MAX_PACKET_SIZE0 },
      [.startEpin0Task])

/-- Standard USB descriptor types, as decoded by `DescriptorType::try_from`
(external `usb2` crate; USB 2.0 standard codes). -/
inductive DescriptorType where
  | DEVICE
  | CONFIGURATION
  | STRING
  | INTERFACE
  | ENDPOINT
  | DEVICE_QUALIFIER
  | OTHER_SPEED_CONFIGURATION
  | INTERFACE_POWER
  deriving DecidableEq, Repr

/-- `DescriptorType::try_from` (external `usb2` crate; USB 2.0 codes). -/
def descriptorTypeOfNat : Nat → Option DescriptorType
  | 1 => some .DEVICE
  | 2 => some .CONFIGURATION
  | 3 => some .STRING
  | 4 => some .INTERFACE
  | 5 => some .ENDPOINT
  | 6 => some .DEVICE_QUALIFIER
  | 7 => some .OTHER_SPEED_CONFIGURATION
  | 8 => some .INTERFACE_POWER
  | _ => none

/-- The three standard request codes `ep0setup` dispatches on; every other
code falls into the `_ => todo()` arm. -/
inductive BRequest where
  | GET_DESCRIPTOR
  | SET_ADDRESS
  | SET_CONFIGURATION
  | Other
  deriving DecidableEq, Repr

/-- `bRequest::from` (external `usb2` crate; USB 2.0 standard codes
`GET_DESCRIPTOR = 6`, `SET_ADDRESS = 5`, `SET_CONFIGURATION = 9`). -/
def bRequestOfNat (n : Nat) : BRequest :=
  if n = 6 then .GET_DESCRIPTOR
  else if n = 5 then .SET_ADDRESS
  else if n = 9 then .SET_CONFIGURATION
  else .Other

/-- The SETUP-packet registers read by `ep0setup`
(`BMREQUESTTYPE`, `BREQUEST`, `WVALUEH/L`, `WINDEX`, `WLENGTH`). -/
structure Setup where
  bmrequesttype : Nat
  brequest : Nat
  wvalueh : Nat
  wvaluel : Nat
  windex : Nat
  wlength : Nat
  deriving DecidableEq, Repr

/-- `DEVICE_DESC.get(..wlength).unwrap_or(&DEVICE_DESC)`: the descriptor
truncated to `wlength` bytes when `wlength` is within bounds, the whole
descriptor otherwise. -/
def descSlice (desc : List Nat) (wlength : Nat) : List Nat :=
  if wlength ≤ desc.length then desc.take wlength else desc

/-- `fn ep0setup` (`usbd.rs`).  The static byte tables `DEVICE_DESC` and
`CONFIG_DESC` (generated into `descs.rs`) are passed as parameters.  The
result carries the new `(USB_STATE, EP0_STATE, endpoint-0 registers)`. -/
def ep0setup (DEVICE_DESC CONFIG_DESC : List Nat) (sp : Setup)
    (usb_state : Usb2State) (ep_state : Ep0State) (hw : Ep0Hw) :
    Step (Usb2State × Ep0State × Ep0Hw) :=
  match sp.bmrequesttype, bRequestOfNat sp.brequest with
  | 128, .GET_DESCRIPTOR =>
    match descriptorTypeOfNat sp.wvalueh with
    | some dt =>
      match dt with
      | .DEVICE =>
        if sp.wvaluel = 0 ∧ sp.windex = 0 then
          let r := start_epin0 (descSlice DEVICE_DESC sp.wlength).length
          .ok (usb_state, r.1, r.2.1) r.2.2
        else .fatal
      | .CONFIGURATION =>
        if sp.windex = 0 then
          if sp.wvaluel = 0 then
            let r := start_epin0 (descSlice CONFIG_DESC sp.wlength).length
            .ok (usb_state, r.1, r.2.1) r.2.2
          else .ok (usb_state, ep_state, hw) [.ep0stall]
        else .fatal
      | .DEVICE_QUALIFIER => .ok (usb_state, ep_state, hw) [.ep0stall]
      | _ => .fatal
    | none => .ok (usb_state, ep_state, hw) [.ep0stall]
  | 0, .SET_ADDRESS =>
    if usb_state ≠ .Default then .fatal
    else
      let addr := sp.wvaluel + 256 * sp.wvalueh
      if addr < 128 ∧ sp.windex = 0 ∧ sp.wlength = 0 then
        .ok (.Address, ep_state, hw) []
      else .ok (usb_state, ep_state, hw) [.ep0stall]
  | 0, .SET_CONFIGURATION =>
    let configuration := sp.wvaluel
    if sp.wvalueh = 0 ∧ sp.windex = 0 ∧ sp.wlength = 0 ∧ configuration ≤ NCONFIGS then
      if usb_state = .Default then .fatal
      else if configuration = 0 then .fatal
      else
        .ok (.Configured configuration, ep_state, hw)
          [.epinenBulkEnable, .epoutenBulkEnable, .sizeEpout1Write 0, .ep0status]
    else .ok (usb_state, ep_state, hw) [.ep0stall]
  | _, _ => .fatal

/-- `UsbdEvent` (`usbd.rs`): the decoded pending `USBD` peripheral event. -/
inductive UsbdEvent where
  | ENDEPIN1
  | ENDEPOUT1
  | EP0SETUP
  | EP0DATADONE
  | EPDATA
  | USBEVENT
  | USBRESET
  deriving DecidableEq, Repr

/-- The seven `USBD` event registers polled by `UsbdEvent::next`. -/
structure UsbdEventBits where
  bUsbevent : Bool
  bUsbreset : Bool
  bEp0datadone : Bool
  bEp0setup : Bool
  bEndepin1 : Bool
  bEndepout1 : Bool
  bEpdata : Bool
  deriving DecidableEq, Repr

/-- `UsbdEvent::next` (`usbd.rs`): the pending events decoded in priority
order; `none` means no event bit is pending (the `unreachable()` arm, made
fatal at the `usbdIrq` level). -/
def nextUsbdEvent (b : UsbdEventBits) : Option UsbdEvent :=
  if b.bUsbevent then some .USBEVENT
  else if b.bUsbreset then some .USBRESET
  else if b.bEp0datadone then some .EP0DATADONE
  else if b.bEp0setup then some .EP0SETUP
  else if b.bEndepin1 then some .ENDEPIN1
  else if b.bEndepout1 then some .ENDEPOUT1
  else if b.bEpdata then some .EPDATA
  else none

/-- The `USBD` registers read by the `USBD` handler: the acknowledged
`EVENTCAUSE` bits, the acknowledged `EPDATASTATUS` bits, the
`SIZE_EPOUT1` register and the SETUP-packet registers. -/
structure HwIn where
  eventcauseReady : Bool
  eventcauseSuspend : Bool
  eventcauseResume : Bool
  epdataEpin1 : Bool
  epdataEpout1 : Bool
  sizeEpout1 : Nat
  setup : Setup
  deriving DecidableEq, Repr

/-- The driver state shared between the `USBD` handler and the task side:
`PCSTATE`, `USB_STATE`, `EP0_STATE`, the endpoint-0 registers,
`EPOUT1_STATE`, `EPOUT1_SIZE` and `EPIN1_BUSY`. -/
structure DevState where
  pc : PowerState
  usb : Usb2State
  ep0 : Ep0State
  ep0hw : Ep0Hw
  epout1 : EpOut1State
  epout1Size : Nat
  epin1Busy : Bool
  deriving DecidableEq, Repr

/-- The `USBD` interrupt handler (`fn USBD` in `usbd.rs`) for one decoded
event `ev`, with register reads supplied by `hw`. -/
def usbdTask (DEVICE_DESC CONFIG_DESC : List Nat) (ev : UsbdEvent)
    (hw : HwIn) (s : DevState) : Step DevState :=
  match s.pc with
  | .Off => .fatal
  | .RampUp c p u =>
    if !u && ev = .USBEVENT then
      if hw.eventcauseReady = false then .fatal
      else if c && p then .ok { s with pc := .Ready } [.connect]
      else .ok { s with pc := .RampUp c p true } []
    else .fatal
  | .Ready =>
    match ev with
    | .USBEVENT =>
      if hw.eventcauseSuspend then .ok s [.lowPowerEnter]
      else if hw.eventcauseResume then .ok s [.lowPowerLeave]
      else .fatal
    | .USBRESET =>
      match s.usb with
      | .Default => .ok { s with usb := .Default } []
      | .Address => .ok { s with usb := .Default } []
      | .Configured _ => .fatal
    | .EP0SETUP =>
      if s.ep0 ≠ .Idle then .fatal
      else
        match ep0setup DEVICE_DESC CONFIG_DESC hw.setup s.usb s.ep0 s.ep0hw with
        | .fatal => .fatal
        | .ok (usb1, ep01, hw1) acts =>
          .ok { s with usb := usb1, ep0 := ep01, ep0hw := hw1 } acts
    | .EP0DATADONE =>
      match s.ep0 with
      | .Write l =>
        if l ≠ 0 then
          let r := continue_epin0 l s.ep0hw
          .ok { s with ep0 := .Write r.1, ep0hw := r.2.1 } r.2.2
        else .ok { s with ep0 := .Idle } []
      | .Idle => .fatal
    | .ENDEPIN1 => .ok s [.epin1Free]
    | .ENDEPOUT1 =>
      if s.epout1 ≠ .TransferInProgress then .fatal
      else .ok { s with epout1 := .Idle } []
    | .EPDATA =>
      let s1 := if hw.epdataEpin1 then { s with epin1Busy := false } else s
      if hw.epdataEpout1 then
        match s1.epout1 with
        | .Idle => .ok { s1 with epout1 := .DataReady } []
        | .BufferReady =>
          .ok { s1 with epout1 := .TransferInProgress, epout1Size := hw.sizeEpout1 }
            [.epout1MaxcntWrite hw.sizeEpout1, .startEpout1Task hw.sizeEpout1]
        | .DataReady => .fatal
        | .TransferInProgress => .fatal
      else .ok s1 []

/-- One `USBD` interrupt: decode the highest-priority pending event and run
the handler; with no pending event bit `UsbdEvent::next` hits its
`unreachable()` arm. -/
def usbdIrq (DEVICE_DESC CONFIG_DESC : List Nat) (b : UsbdEventBits)
    (hw : HwIn) (s : DevState) : Step DevState :=
  match nextUsbdEvent b with
  | none => .fatal
  | some ev => usbdTask DEVICE_DESC CONFIG_DESC ev hw s

/-- The `(EPIN0_MAXCNT, SHORTS bit)` pairs of the packets produced by the
`EP0DATADONE` completions that follow `start_epin0`: while the recorded
leftover is nonzero, each completion runs `continue_epin0` and sends one
more packet. -/
def ep0Chunks (l : Nat) (hw : Ep0Hw) : List (Nat × Bool) :=
  if h : l = 0 then []
  else
    let r := continue_epin0 l hw
    (r.2.1.maxcnt, r.2.1.short) :: ep0Chunks r.1 r.2.1
termination_by l
decreasing_by
  have hlt : (continue_epin0 l hw).1 < l := by
    unfold continue_epin0 MAX_PACKET_SIZE0
    split <;> omega
  exact hlt

/-- The full `(EPIN0_MAXCNT, SHORTS bit)` packet sequence of a control-read
transfer of `len` bytes: the packet sent by `start_epin0` followed by the
packets sent by the subsequent `EP0DATADONE` completions. -/
def ep0Packets (len : Nat) : List (Nat × Bool) :=
  let r := start_epin0 len
  match r.1 with
  | .Write l => (r.2.1.maxcnt, r.2.1.short) :: ep0Chunks l r.2.1
  | .Idle => []

/-- Local state of one `BulkOut::read` call combined with the driver
state: the `packet.len` field and the `needs_len` flag. -/
structure C3State where
  dev : DevState
  pktLen : Nat
  needsLen : Bool
  deriving DecidableEq, Repr

/-- The `epstart` closure of `BulkOut::read` (`usbd.rs`), run with the
`USBD` interrupt masked.  `sz` is what `SIZE_EPOUT1()` would read.  In the
`DataReady` arm the DMA start is skipped when the size equals the `NO_DATA`
sentinel (255); `packet.set_len` truncates to `Packet::CAPACITY = 64`.
`none` is the debug-assertion `unreachable()` path. -/
def epstart (sz : Nat) (c : C3State) : Option (C3State × List Action) :=
  match c.dev.epout1 with
  | .Idle =>
    some ({ c with dev := { c.dev with epout1 := .BufferReady } }, [])
  | .DataReady =>
    some ({ c with
              dev := { c.dev with epout1 := .TransferInProgress },
              pktLen := min sz 64,
              needsLen := false },
          [.epout1MaxcntWrite sz] ++ (if sz ≠ 255 then [.startEpout1Task sz] else []))
  | .BufferReady => none
  | .TransferInProgress => none

/-- After the completion poll of `BulkOut::read` observes `Idle` or
`DataReady`: if `needs_len` is still set, the packet length is taken from
the `EPOUT1_SIZE` cell (truncated by `set_len` to 64). -/
def c3finish (c : C3State) : C3State :=
  if c.needsLen then { c with pktLen := min c.dev.epout1Size 64 } else c

/-- The three events of one bulk-OUT packet hand-off: the application's
`read` arming step, the `EPDATA` interrupt with the `EPOUT1` status bit,
and the `ENDEPOUT1` interrupt. -/
inductive C3Event where
  | appRead
  | hwData
  | hwDone
  deriving DecidableEq, Repr

/-- Driver state at the start of a configured bulk-OUT scenario. -/
def c3initDev : DevState :=
  { pc := .Ready, usb := .Configured 1, ep0 := .Idle,
    ep0hw := { short := false, maxcnt := 0, ptrOff := 0 },
    epout1 := .Idle, epout1Size := 0, epin1Busy := false }

/-- Register inputs of the bulk-OUT scenario: `EPDATASTATUS` reports only
the `EPOUT1` bit and `SIZE_EPOUT1` reads `sz`. -/
def c3hw (sz : Nat) : HwIn :=
  { eventcauseReady := false, eventcauseSuspend := false, eventcauseResume := false,
    epdataEpin1 := false, epdataEpout1 := true, sizeEpout1 := sz,
    setup := { bmrequesttype := 0, brequest := 0, wvalueh := 0, wvaluel := 0,
               windex := 0, wlength := 0 } }

/-- One step of the bulk-OUT hand-off scenario: the application step runs
`epstart`, the hardware steps run the real `USBD` handler. -/
def c3step (sz : Nat) (c : C3State) (e : C3Event) : Option (C3State × List Action) :=
  match e with
  | .appRead => epstart sz c
  | .hwData =>
    match usbdTask [] [] .EPDATA (c3hw sz) c.dev with
    | .fatal => none
    | .ok d acts => some ({ c with dev := d }, acts)
  | .hwDone =>
    match usbdTask [] [] .ENDEPOUT1 (c3hw sz) c.dev with
    | .fatal => none
    | .ok d acts => some ({ c with dev := d }, acts)

/-- Number of `TASKS_STARTEPOUT1` triggers among the emitted actions. -/
def countStarts (acts : List Action) : Nat :=
  acts.countP (fun a => match a with | .startEpout1Task _ => true | _ => false)

/-- Run a bulk-OUT scenario, accumulating the `TASKS_STARTEPOUT1` count;
`none` if any step hits a fatal path. -/
def c3run (sz : Nat) (es : List C3Event) : Option (C3State × Nat) :=
  es.foldl
    (fun acc e =>
      match acc with
      | none => none
      | some (c, n) =>
        match c3step sz c e with
        | none => none
        | some (c1, acts) => some (c1, n + countStarts acts))
    (some ({ dev := c3initDev, pktLen := 0, needsLen := true }, 0))

/-- The bulk-IN hardware cell: the `EPIN1_BUSY` flag and the `EPIN1_PTR` /
`EPIN1_MAXCNT` registers describing the in-flight buffer. -/
structure In1State where
  busy : Bool
  ptrReg : Nat
  maxcntReg : Nat
  deriving DecidableEq, Repr

/-- One attempt of `BulkIn::write` (`usbd.rs`) after the endpoint-enable
wait: while `EPIN1_BUSY` is set the `poll_fn` returns `Pending` (state
untouched, result `false`); otherwise the buffer registers are written,
`EPIN1_BUSY` is set, and `TASKS_STARTEPIN1` is triggered (result `true`). -/
def bulkInWrite (s : In1State) (p len : Nat) : In1State × Bool :=
  if s.busy then (s, false)
  else ({ busy := true, ptrReg := p, maxcntReg := len }, true)

/-- Events acting on the bulk-IN cell: a `write` attempt from the task
side, or the `EPDATA` interrupt reporting `EPIN1` completion, whose handler
arm stores `false` into `EPIN1_BUSY`. -/
inductive In1Event where
  | wr (p len : Nat)
  | done
  deriving DecidableEq, Repr

/-- One step of the bulk-IN system; the accumulator also counts started
transfers and handled completions. -/
def in1Step (x : In1State × Nat × Nat) (e : In1Event) : In1State × Nat × Nat :=
  match e with
  | .wr p len =>
    let r := bulkInWrite x.1 p len
    (r.1, x.2.1 + (if r.2 then 1 else 0), x.2.2)
  | .done => ({ x.1 with busy := false }, x.2.1, x.2.2 + 1)

/-- Run a sequence of bulk-IN events from the reset state
(`EPIN1_BUSY = false`). -/
def in1Run (es : List In1Event) : In1State × Nat × Nat :=
  es.foldl in1Step ({ busy := false, ptrReg := 0, maxcntReg := 0 }, 0, 0)

/-- `fn claim` (`usbd.rs`): the `ONCE.compare_exchange(false, true, ..)`
guard.  Result: `some ()` when the endpoint pair is handed out, `none` for
the `semidap::panic!` path; the second component is the `ONCE` flag after
the call. -/
def claimOnce (once : Bool) : Option Unit × Bool :=
  if once then (none, true) else (some (), true)

/-- Outcomes of `n` consecutive `claim()` calls starting from flag state
`once` (`true` = the call returned the endpoint pair). -/
def claimRun : Bool → Nat → List Bool
  | _, 0 => []
  | once, n + 1 =>
    let r := claimOnce once
    r.1.isSome :: claimRun r.2 n

/-- 2^32, the modulus of the host tool's `u32` cursor arithmetic. -/
def U32 : Nat := 4294967296

/-- `fn drain` (`host/semidap/src/main.rs`).  `read` and `write` are the
two cursor words (below 2^32), `cap` the circular-buffer capacity, and
`buf i` the device memory byte at `bufferp + i`.  Returns the bytes
appended to the host buffer and the final value of the `read` cursor
word.  Availability is `write.wrapping_sub(read)`; the wrapped region is
fetched as `pivot` bytes from `bufferp + cursor` followed by
`available - pivot` bytes from `bufferp`. -/
def drain (read write cap : Nat) (buf : Nat → Nat) : List Nat × Nat :=
  let available := (write + U32 - read) % U32
  let cursor := read % cap
  if cursor + available > cap then
    let pivot := cursor + available - cap
    let firstHalf := (List.range pivot).map (fun i => buf (cursor + i))
    let secondHalf := (List.range (available - pivot)).map (fun i => buf i)
    (firstHalf ++ secondHalf, (read + available) % U32)
  else
    ((List.range available).map (fun i => buf (cursor + i)), (read + available) % U32)

/-- Modelled from the spec: the drain contract of §6 and of claim C4 — the
readable region `read..write` of the circular buffer, fetched when it
wraps as the `cap - cursor` bytes from `bufferp + cursor` followed by the
remaining `available - (cap - cursor)` bytes from `bufferp`, the read
cursor advancing by `available` in total. -/
def drainSpecified (read write cap : Nat) (buf : Nat → Nat) : List Nat × Nat :=
  let available := (write + U32 - read) % U32
  let cursor := read % cap
  if cursor + available > cap then
    let firstLen := cap - cursor
    let firstHalf := (List.range firstLen).map (fun i => buf (cursor + i))
    let secondHalf := (List.range (available - firstLen)).map (fun i => buf i)
    (firstHalf ++ secondHalf, (read + available) % U32)
  else
    ((List.range available).map (fun i => buf (cursor + i)), (read + available) % U32)

/-- Total length of a control-read transfer as recorded after
`start_epin0`: the bytes already handed to the hardware (`EPIN0_MAXCNT`)
plus the recorded leftover. -/
def totalOfEp0 : Ep0State → Ep0Hw → Nat
  | .Write l, hw => l + hw.maxcnt
  | .Idle, _ => 0

/-- Total length of the control-read transfer started by an `ep0setup`
outcome, if any. -/
def ep0TransferTotal (r : Step (Usb2State × Ep0State × Ep0Hw)) : Option Nat :=
  match r with
  | .ok (_, st, hw) _ => some (totalOfEp0 st hw)
  | .fatal => none

/-! Theorems. -/

/-- C6 counterexample: with the high-frequency clock already stable when
`USBDETECTED` arrives in `Off`, the handler does not reach
`RampUp{clock: false, power: false, usb: false}` — the `clock` flag is
initialized from `clock::is_stable()`, not to `false`. -/
theorem c6_counterexample :
    stateOf (powerTask .Off (some .USBDETECTED) true) ≠
      some (.RampUp false false false) := by
  decide

/-- C6 (amended): when `USBDETECTED` arrives while `PowerState` is `Off`,
the handler enables the USB peripheral and transitions to `RampUp` with
`power` and `usb` false and `clock` initialized to the current value of
`clock::is_stable()`. -/
theorem c6_amended (cs : Bool) :
    powerTask .Off (some .USBDETECTED) cs = .ok (.RampUp cs false false) [.enableUsb] := by
  cases cs <;> rfl

theorem claimRun_true (n : Nat) : claimRun true n = List.replicate n false := by
  induction n with
  | zero => rfl
  | succ n ih => simp [claimRun, claimOnce, ih, List.replicate_succ]

/-- C10: out of any sequence of `n + 1` consecutive `claim()` calls
starting from the initial `ONCE = false` state, exactly the first returns
the `(BulkIn, BulkOut)` pair; every later call hits the
`semidap::panic!` path. -/
theorem c10_claim_once (n : Nat) :
    claimRun false (n + 1) = true :: List.replicate n false := by
  simp [claimRun, claimOnce, claimRun_true]

/-- C4 evidence: at `read = 14`, `write = 20`, `cap = 16` (buffer byte at
offset `i` equal to `i`) the code's split transfer returns the bytes at
offsets 14..18 — past the buffer end — followed by offsets 0..2, while the
specified wire contract returns offsets 14..16 followed by 0..4: the two
halves' lengths are swapped. -/
theorem c4_drain_split_swapped :
    drain 14 20 16 (fun i => i) = ([14, 15, 16, 17, 0, 1], 20)
  ∧ drainSpecified 14 20 16 (fun i => i) = ([14, 15, 0, 1, 2, 3], 20)
  ∧ drain 14 20 16 (fun i => i) ≠ drainSpecified 14 20 16 (fun i => i) := by
  refine ⟨?_, ?_, ?_⟩ <;> decide

/-- C5: a `RampUp` state advances to `Ready` exactly when the three
readiness flags are all true, and `connect()` (asserting the bus pull-up)
is issued exactly at that transition; with any flag still false, both the
`POWER` and the `USBD` handlers keep the state in `RampUp` and the
pull-up stays deasserted. -/
theorem c5_ready_requires_all_flags :
    (∀ c p u, rampUpAdvance c p u = .ok .Ready [.connect] ↔
       (c = true ∧ p = true ∧ u = true))
  ∧ (∀ c p u, ¬(c = true ∧ p = true ∧ u = true) →
       rampUpAdvance c p u = .ok (.RampUp c p u) [] ∧
       pullupAfter false (rampUpAdvance c p u) = false)
  ∧ (∀ c p u ev cs s1 acts, powerTask (.RampUp c p u) ev cs = .ok s1 acts →
       (s1 = .Ready → Action.connect ∈ acts) ∧
       (s1 ≠ .Ready → Action.connect ∉ acts ∧
         ∃ c1 p1 u1, s1 = .RampUp c1 p1 u1 ∧ ¬(c1 = true ∧ p1 = true ∧ u1 = true)))
  ∧ (∀ DD CD ev hw s c p u s1 acts, s.pc = .RampUp c p u →
       usbdTask DD CD ev hw s = .ok s1 acts →
       ((s1.pc = .Ready ∧ Action.connect ∈ acts ∧ c = true ∧ p = true) ∨
        (s1.pc = .RampUp c p true ∧ ¬(c = true ∧ p = true) ∧ Action.connect ∉ acts))) := by
  refine ⟨by decide, by decide, ?_, ?_⟩
  · intro c p u ev cs s1 acts h
    cases c <;> cases p <;> cases u <;> rcases ev with _ | e <;> try cases e
    all_goals simp [powerTask, rampUpAdvance] at h
    all_goals rcases h with ⟨rfl, rfl⟩
    all_goals refine ⟨fun hh => ?_, fun hh => ?_⟩
    all_goals first
      | exact (hh rfl).elim
      | exact absurd hh (by decide)
      | simp
  · intro DD CD ev hw s c p u s1 acts hpc h
    obtain ⟨pc, usb, ep0, ep0hw, epo, szv, bsy⟩ := s
    cases hpc
    cases ev <;> cases u <;> cases c <;> cases p <;>
      rcases hr : hw.eventcauseReady with _ | _ <;>
      simp_all [usbdTask]
    all_goals rcases h with ⟨rfl, rfl⟩
    all_goals simp
/-- C1: every (state, decoded event) pair for which the transition tables
define no transition is fatal — a power event other than `USBDETECTED`
while `Off`, any power event the `RampUp`/`Ready` tables do not expect,
an `EP0DATADONE` while `Ep0State` is `Idle`, an `EPDATA` `EPOUT1` signal
while `EpOut1State` is `DataReady` or `TransferInProgress`, an
`ENDEPOUT1` outside `TransferInProgress`, an `EP0SETUP` while a control
read is outstanding, any `USBD` event while the power machine is not in
the state expecting it, and a `USBD` interrupt with no pending event bit —
and the fatal path clears the USB pull-up; none of these pairs is
silently ignored. -/
theorem c1_undefined_transitions_fatal :
    (∀ e cs, e ≠ PowerEvent.USBDETECTED → powerTask .Off (some e) cs = .fatal)
  ∧ (∀ c p u e cs, ¬(p = false ∧ e = PowerEvent.USBPWRRDY) →
       powerTask (.RampUp c p u) (some e) cs = .fatal)
  ∧ (∀ ev cs, powerTask .Ready ev cs = .fatal)
  ∧ (∀ DD CD ev hw s, s.pc = .Off → usbdTask DD CD ev hw s = .fatal)
  ∧ (∀ DD CD ev hw s c p u, s.pc = .RampUp c p u → (u = true ∨ ev ≠ .USBEVENT) →
       usbdTask DD CD ev hw s = .fatal)
  ∧ (∀ DD CD hw s, s.pc = .Ready → s.ep0 = .Idle →
       usbdTask DD CD .EP0DATADONE hw s = .fatal)
  ∧ (∀ DD CD hw s, s.pc = .Ready → hw.epdataEpout1 = true →
       (s.epout1 = .DataReady ∨ s.epout1 = .TransferInProgress) →
       usbdTask DD CD .EPDATA hw s = .fatal)
  ∧ (∀ DD CD hw s, s.pc = .Ready → s.epout1 ≠ .TransferInProgress →
       usbdTask DD CD .ENDEPOUT1 hw s = .fatal)
  ∧ (∀ DD CD hw s, s.pc = .Ready → s.ep0 ≠ .Idle →
       usbdTask DD CD .EP0SETUP hw s = .fatal)
  ∧ (∀ b, nextUsbdEvent b = none ↔
       (b.bUsbevent = false ∧ b.bUsbreset = false ∧ b.bEp0datadone = false ∧
        b.bEp0setup = false ∧ b.bEndepin1 = false ∧ b.bEndepout1 = false ∧
        b.bEpdata = false))
  ∧ (∀ DD CD b hw s, nextUsbdEvent b = none → usbdIrq DD CD b hw s = .fatal)
  ∧ (∀ p : Bool, pullupAfter p (Step.fatal : Step DevState) = false) := by
  refine ⟨?_, ?_, ?_, ?_, ?_, ?_, ?_, ?_, ?_, ?_, ?_, ?_⟩
  · intro e cs he
    cases e <;> simp_all [powerTask]
  · intro c p u e cs hne
    cases c <;> cases p <;> cases e <;> simp_all [powerTask]
  · intro ev cs
    rfl
  · intro DD CD ev hw s hpc
    obtain ⟨pc, usb, ep0, ep0hw, epo, szv, bsy⟩ := s
    cases hpc
    rfl
  · intro DD CD ev hw s c p u hpc hdisj
    obtain ⟨pc, usb, ep0, ep0hw, epo, szv, bsy⟩ := s
    cases hpc
    cases u <;> cases ev <;> simp_all [usbdTask]
  · intro DD CD hw s hpc hidle
    obtain ⟨pc, usb, ep0, ep0hw, epo, szv, bsy⟩ := s
    cases hpc
    cases hidle
    rfl
  · intro DD CD hw s hpc hout hst
    obtain ⟨pc, usb, ep0, ep0hw, epo, szv, bsy⟩ := s
    cases hpc
    rcases hst with h | h <;> cases h <;>
      cases hb : hw.epdataEpin1 <;> simp_all [usbdTask]
  · intro DD CD hw s hpc hne
    obtain ⟨pc, usb, ep0, ep0hw, epo, szv, bsy⟩ := s
    cases hpc
    simp_all [usbdTask]
  · intro DD CD hw s hpc hne
    obtain ⟨pc, usb, ep0, ep0hw, epo, szv, bsy⟩ := s
    cases hpc
    simp_all [usbdTask]
  · intro b
    obtain ⟨b1, b2, b3, b4, b5, b6, b7⟩ := b
    cases b1 <;> cases b2 <;> cases b3 <;> cases b4 <;>
      cases b5 <;> cases b6 <;> cases b7 <;> simp [nextUsbdEvent]
  · intro DD CD b hw s hn
    simp [usbdIrq, hn]
  · intro p
    rfl

/-- C7: a `SET_CONFIGURATION` with `wValueHigh = wIndex = wLength = 0` and
configuration value 1, handled outside the `Default` state, moves the bus
state to `Configured 1`, enables the bulk endpoints, writes
`SIZE_EPOUT1 = 0` and issues the `EP0STATUS` status stage; any
`SET_CONFIGURATION` with a nonzero `wValueHigh`, `wIndex` or `wLength`, or
a configuration value above 1, stalls endpoint 0 and leaves the
enumeration state (and the endpoint-0 state) unchanged. -/
theorem c7_set_configuration (DD CD : List Nat) (sp : Setup) (usb : Usb2State)
    (ep0 : Ep0State) (hw : Ep0Hw)
    (hbm : sp.bmrequesttype = 0) (hbr : sp.brequest = 9) :
    (sp.wvalueh = 0 → sp.windex = 0 → sp.wlength = 0 → sp.wvaluel = 1 →
       usb ≠ .Default →
       ep0setup DD CD sp usb ep0 hw =
         .ok (.Configured 1, ep0, hw)
           [.epinenBulkEnable, .epoutenBulkEnable, .sizeEpout1Write 0, .ep0status])
  ∧ (¬(sp.wvalueh = 0 ∧ sp.windex = 0 ∧ sp.wlength = 0 ∧ sp.wvaluel ≤ 1) →
       ep0setup DD CD sp usb ep0 hw = .ok (usb, ep0, hw) [.ep0stall]) := by
  obtain ⟨bm, br, vh, vl, wi, wl⟩ := sp
  cases hbm
  cases hbr
  have hunf : ep0setup DD CD ⟨0, 9, vh, vl, wi, wl⟩ usb ep0 hw =
      (if vh = 0 ∧ wi = 0 ∧ wl = 0 ∧ vl ≤ NCONFIGS then
         (if usb = .Default then .fatal
          else if vl = 0 then .fatal
          else .ok (.Configured vl, ep0, hw)
            [.epinenBulkEnable, .epoutenBulkEnable, .sizeEpout1Write 0, .ep0status])
       else .ok (usb, ep0, hw) [.ep0stall]) := rfl
  constructor
  · intro h1 h2 h3 h4 h5
    cases h1; cases h2; cases h3; cases h4
    rw [hunf, if_pos (by simp [NCONFIGS]), if_neg h5]
    simp
  · intro hinv
    rw [hunf, if_neg (by simpa [NCONFIGS] using hinv)]

theorem descSlice_length (d : List Nat) (w : Nat) :
    (descSlice d w).length = min d.length w := by
  unfold descSlice
  split <;> simp <;> omega

theorem totalOfEp0_start (n : Nat) (h : n < 65536) :
    totalOfEp0 (start_epin0 n).1 (start_epin0 n).2.1 = n := by
  simp only [start_epin0, Nat.mod_eq_of_lt h, MAX_PACKET_SIZE0]
  split <;> simp [totalOfEp0] <;> omega

/-- C8: a `GET_DESCRIPTOR` for the device descriptor (index 0, language 0)
or the configuration descriptor (index 0, language 0) starts a control
read of total length `min(descriptor length, wLength)`. -/
theorem c8_get_descriptor_truncation (DD CD : List Nat) (sp : Setup)
    (usb : Usb2State) (ep0 : Ep0State) (hw : Ep0Hw)
    (hDD : DD.length < 65536) (hCD : CD.length < 65536)
    (hbm : sp.bmrequesttype = 128) (hbr : sp.brequest = 6)
    (hvl : sp.wvaluel = 0) (hwi : sp.windex = 0) :
    (sp.wvalueh = 1 →
       ep0TransferTotal (ep0setup DD CD sp usb ep0 hw) =
         some (min DD.length sp.wlength))
  ∧ (sp.wvalueh = 2 →
       ep0TransferTotal (ep0setup DD CD sp usb ep0 hw) =
         some (min CD.length sp.wlength)) := by
  obtain ⟨bm, br, vh, vl, wi, wl⟩ := sp
  cases hbm
  cases hbr
  cases hvl
  cases hwi
  constructor
  · intro hvh
    cases hvh
    have hlen : (descSlice DD wl).length < 65536 := by
      rw [descSlice_length]
      omega
    show ep0TransferTotal
        (.ok (usb, (start_epin0 (descSlice DD wl).length).1,
          (start_epin0 (descSlice DD wl).length).2.1)
          (start_epin0 (descSlice DD wl).length).2.2) = _
    simp [ep0TransferTotal, totalOfEp0_start _ hlen, descSlice_length]
    exact totalOfEp0_start _ (by omega)
  · intro hvh
    cases hvh
    have hlen : (descSlice CD wl).length < 65536 := by
      rw [descSlice_length]
      omega
    show ep0TransferTotal
        (.ok (usb, (start_epin0 (descSlice CD wl).length).1,
          (start_epin0 (descSlice CD wl).length).2.1)
          (start_epin0 (descSlice CD wl).length).2.2) = _
    simp [ep0TransferTotal, totalOfEp0_start _ hlen, descSlice_length]
    exact totalOfEp0_start _ (by omega)

theorem in1_invariant (es : List In1Event) (x : In1State × Nat × Nat)
    (hx : x.2.1 ≤ x.2.2 + (if x.1.busy then 1 else 0)) :
    (es.foldl in1Step x).2.1 ≤
      (es.foldl in1Step x).2.2 + (if (es.foldl in1Step x).1.busy then 1 else 0) := by
  induction es generalizing x with
  | nil => simpa using hx
  | cons e es ih =>
    rw [List.foldl_cons]
    apply ih
    obtain ⟨⟨b, pr, mc⟩, st, dn⟩ := x
    cases e with
    | wr p len =>
      cases b <;> simp_all [in1Step, bulkInWrite]
    | done =>
      simp only [in1Step]
      simp
      cases b <;> simp_all <;> omega

/-- C9: `BulkIn::write` never starts a transfer while one is outstanding —
a write attempt with `EPIN1_BUSY` set leaves the buffer registers and the
flag untouched and starts nothing; a write with the flag clear publishes
the buffer registers, sets the flag and starts the transfer; within the
model only the `EPDATA` completion clears the flag, and the handler arm
that does so is the `EPIN1` status bit of `EPDATA`; hence along any event
sequence from the reset state the number of started transfers never
exceeds the number of handled completions by more than the one in
flight. -/
theorem c9_bulk_in_busy :
    (∀ s p len, s.busy = true → bulkInWrite s p len = (s, false))
  ∧ (∀ s p len, s.busy = false →
       bulkInWrite s p len = ({ busy := true, ptrReg := p, maxcntReg := len }, true))
  ∧ (∀ x e, (in1Step x e).1.busy = false → x.1.busy = false ∨ e = In1Event.done)
  ∧ (∀ es, (in1Run es).2.1 ≤
       (in1Run es).2.2 + (if (in1Run es).1.busy then 1 else 0))
  ∧ (∀ DD CD hw s, s.pc = .Ready → hw.epdataEpin1 = true → hw.epdataEpout1 = false →
       usbdTask DD CD .EPDATA hw s = .ok { s with epin1Busy := false } []) := by
  refine ⟨?_, ?_, ?_, ?_, ?_⟩
  · intro s p len hb
    simp [bulkInWrite, hb]
  · intro s p len hb
    simp [bulkInWrite, hb]
  · intro x e hb
    cases e with
    | wr p len =>
      left
      simp only [in1Step, bulkInWrite] at hb
      cases hx : x.1.busy <;> simp_all
    | done => right; rfl
  · intro es
    exact in1_invariant es _ (by simp)
  · intro DD CD hw s hpc hin hout
    obtain ⟨pc, usb, ep0, ep0hw, epo, szv, bsy⟩ := s
    cases hpc
    simp [usbdTask, hin, hout]

/-- C3: whichever of the `EPDATA` data-ready event and the application's
`read` arming step comes first, the three-event hand-off of one host
packet triggers `TASKS_STARTEPOUT1` exactly once, ends with
`EpOut1State = Idle`, and the returned packet length equals the
`SIZE_EPOUT1` value read at the moment the transfer started. -/
theorem c3_epout_handoff (sz : Nat) (h : sz ≤ 64) :
    c3run sz [.appRead, .hwData, .hwDone] =
      some ({ dev := { c3initDev with epout1 := .Idle, epout1Size := sz },
              pktLen := 0, needsLen := true }, 1)
  ∧ (c3finish { dev := { c3initDev with epout1 := .Idle, epout1Size := sz },
                pktLen := 0, needsLen := true }).pktLen = sz
  ∧ c3run sz [.hwData, .appRead, .hwDone] =
      some ({ dev := { c3initDev with epout1 := .Idle },
              pktLen := sz, needsLen := false }, 1)
  ∧ (c3finish { dev := { c3initDev with epout1 := .Idle },
                pktLen := sz, needsLen := false }).pktLen = sz := by
  have h255 : sz ≠ 255 := by omega
  have hmin : min sz 64 = sz := by omega
  refine ⟨?_, ?_, ?_, ?_⟩
  · simp [c3run, c3step, epstart, usbdTask, c3hw, c3initDev, countStarts]
  · simp [c3finish, c3initDev, hmin]
  · simp [c3run, c3step, epstart, usbdTask, c3hw, c3initDev, countStarts, h255, hmin]
  · simp [c3finish]

theorem continue_big (l : Nat) (hw : Ep0Hw) (h : 64 < l) :
    continue_epin0 l hw =
      (l - 64, { hw with ptrOff := hw.ptrOff + 64 }, [.startEpin0Task]) := by
  simp only [continue_epin0, MAX_PACKET_SIZE0]
  rw [if_neg (by omega)]

theorem continue_small (l : Nat) (hw : Ep0Hw) (h : l ≤ 64) :
    continue_epin0 l hw =
      (0, { short := true, maxcnt := l, ptrOff := hw.ptrOff + 64 },
        [.startEpin0Task]) := by
  simp only [continue_epin0, MAX_PACKET_SIZE0]
  rw [if_pos h]

theorem ep0Chunks_zero (hw : Ep0Hw) : ep0Chunks 0 hw = [] := by
  unfold ep0Chunks
  rfl

theorem ep0Chunks_step (l : Nat) (hw : Ep0Hw) (h : l ≠ 0) :
    ep0Chunks l hw =
      ((continue_epin0 l hw).2.1.maxcnt, (continue_epin0 l hw).2.1.short) ::
        ep0Chunks (continue_epin0 l hw).1 (continue_epin0 l hw).2.1 := by
  conv_lhs => rw [ep0Chunks]
  simp [h]

theorem ep0Chunks_closed (l : Nat) (hl : 0 < l) (po : Nat) :
    ep0Chunks l { short := false, maxcnt := 64, ptrOff := po } =
      List.replicate ((l - 1) / 64) ((64 : Nat), false) ++
        [(if l % 64 = 0 then 64 else l % 64, true)] := by
  induction l using Nat.strong_induction_on generalizing po with
  | _ l ih =>
    rcases Nat.lt_or_ge 64 l with hbig | hsmall
    · rw [ep0Chunks_step l _ (by omega), continue_big l _ hbig]
      simp only
      rw [ih (l - 64) (by omega) (by omega) (po + 64)]
      have h1 : (l - 1) / 64 = (l - 64 - 1) / 64 + 1 := by omega
      have h2 : (l - 64) % 64 = l % 64 := by omega
      rw [h2, h1, List.replicate_succ, List.cons_append]
    · rw [ep0Chunks_step l _ (by omega), continue_small l _ hsmall]
      simp only [ep0Chunks_zero]
      have h1 : (l - 1) / 64 = 0 := by omega
      have h2 : (if l % 64 = 0 then (64 : Nat) else l % 64) = l := by
        split <;> omega
      rw [h1, h2]
      simp

theorem start_epin0_big (n : Nat) (h1 : 64 < n) (h2 : n < 65536) :
    start_epin0 n =
      (.Write (n - 64), { short := false, maxcnt := 64, ptrOff := 0 },
        [.startEpin0Task]) := by
  simp only [start_epin0, Nat.mod_eq_of_lt h2, MAX_PACKET_SIZE0]
  rw [if_neg (by omega)]

/-- C2: a control read of total length `len > 64` is sent in exactly
`ceil(len/64)` packets: `start_epin0` sends one 64-byte packet and records
`leftover = len - 64`; every completion with leftover above 64 sends
another full 64-byte packet (`EPIN0_MAXCNT` untouched) and subtracts 64;
the final packet is sent with the short-packet/auto-status shortcut armed
and carries `len mod 64` bytes (64 when `len` is divisible by 64), setting
the leftover to 0; the completion that follows a zero leftover returns
`Ep0State` to `Idle`. -/
theorem c2_chunked_control_read (len : Nat) (h64 : 64 < len) (hlt : len < 65536) :
    (start_epin0 len).1 = .Write (len - 64)
  ∧ (start_epin0 len).2.1.maxcnt = 64 ∧ (start_epin0 len).2.1.short = false
  ∧ ep0Packets len =
      List.replicate ((len + 63) / 64 - 1) ((64 : Nat), false) ++
        [(if len % 64 = 0 then 64 else len % 64, true)]
  ∧ (ep0Packets len).length = (len + 63) / 64
  ∧ (∀ l hw, 64 < l →
       continue_epin0 l hw =
         (l - 64, { hw with ptrOff := hw.ptrOff + 64 }, [.startEpin0Task]))
  ∧ (∀ l hw, 0 < l → l ≤ 64 →
       continue_epin0 l hw =
         (0, { short := true, maxcnt := l, ptrOff := hw.ptrOff + 64 },
           [.startEpin0Task]))
  ∧ (∀ DD CD hw s l, s.pc = .Ready → s.ep0 = .Write l → l ≠ 0 →
       usbdTask DD CD .EP0DATADONE hw s =
         .ok { s with ep0 := .Write (continue_epin0 l s.ep0hw).1,
                      ep0hw := (continue_epin0 l s.ep0hw).2.1 }
           [.startEpin0Task])
  ∧ (∀ DD CD hw s, s.pc = .Ready → s.ep0 = .Write 0 →
       usbdTask DD CD .EP0DATADONE hw s = .ok { s with ep0 := .Idle } []) := by
  have hstart := start_epin0_big len h64 hlt
  have hpack : ep0Packets len =
      List.replicate ((len + 63) / 64 - 1) ((64 : Nat), false) ++
        [(if len % 64 = 0 then 64 else len % 64, true)] := by
    unfold ep0Packets
    rw [hstart]
    simp only
    rw [ep0Chunks_closed (len - 64) (by omega) 0]
    have h1 : (len + 63) / 64 - 1 = (len - 64 - 1) / 64 + 1 := by omega
    have h2 : (len - 64) % 64 = len % 64 := by omega
    rw [h2, h1, List.replicate_succ, List.cons_append]
  refine ⟨by rw [hstart], by rw [hstart], by rw [hstart], hpack, ?_, ?_, ?_, ?_, ?_⟩
  · rw [hpack]
    simp
    omega
  · intro l hw hbig
    exact continue_big l hw hbig
  · intro l hw hpos hsmall
    exact continue_small l hw hsmall
  · intro DD CD hw s l hpc hep hne
    obtain ⟨pc, usb, ep0, ep0hw, epo, szv, bsy⟩ := s
    cases hpc
    cases hep
    have hacts : (continue_epin0 l ep0hw).2.2 = [Action.startEpin0Task] := by
      simp only [continue_epin0]
      split <;> rfl
    simp [usbdTask, hne, hacts]
  · intro DD CD hw s hpc hep
    obtain ⟨pc, usb, ep0, ep0hw, epo, szv, bsy⟩ := s
    cases hpc
    cases hep
    simp [usbdTask]

/-- C1 witness: concrete undefined pairs hit the fatal path. -/
theorem c1_witness :
    powerTask .Off (some .USBPWRRDY) false = .fatal ∧
    powerTask .Ready none true = .fatal :=
  ⟨c1_undefined_transitions_fatal.1 .USBPWRRDY false (by decide),
   c1_undefined_transitions_fatal.2.2.1 none true⟩

/-- C2 witness: a 130-byte control read goes out as 64 + 64 + 2 bytes,
with the shortcut armed only on the last packet. -/
theorem c2_witness : ep0Packets 130 = [(64, false), (64, false), (2, true)] := by
  have h := (c2_chunked_control_read 130 (by norm_num) (by norm_num)).2.2.2.1
  simpa using h

/-- C3 witness: the read-first hand-off of a 10-byte packet. -/
theorem c3_witness :
    c3run 10 [.appRead, .hwData, .hwDone] =
      some ({ dev := { c3initDev with epout1 := .Idle, epout1Size := 10 },
              pktLen := 0, needsLen := true }, 1) :=
  (c3_epout_handoff 10 (by norm_num)).1

/-- C5 witness: with all flags false the state stays `RampUp` and the
pull-up stays deasserted. -/
theorem c5_witness :
    rampUpAdvance false false false = .ok (.RampUp false false false) [] ∧
    pullupAfter false (rampUpAdvance false false false) = false :=
  c5_ready_requires_all_flags.2.1 false false false (by decide)

/-- C7 witness: `SET_CONFIGURATION(1)` in the `Address` state. -/
theorem c7_witness :
    ep0setup [] [] ⟨0, 9, 0, 1, 0, 0⟩ .Address .Idle ⟨false, 0, 0⟩ =
      .ok (.Configured 1, .Idle, ⟨false, 0, 0⟩)
        [.epinenBulkEnable, .epoutenBulkEnable, .sizeEpout1Write 0, .ep0status] :=
  (c7_set_configuration [] [] ⟨0, 9, 0, 1, 0, 0⟩ .Address .Idle ⟨false, 0, 0⟩
    rfl rfl).1 rfl rfl rfl rfl (by decide)

/-- C8 witness: `GET_DESCRIPTOR(DEVICE)` with an 18-byte descriptor and
`wLength = 9` starts a 9-byte transfer. -/
theorem c8_witness :
    ep0TransferTotal
      (ep0setup (List.replicate 18 0) [] ⟨128, 6, 1, 0, 0, 9⟩ .Default .Idle
        ⟨false, 0, 0⟩) = some 9 := by
  have h := (c8_get_descriptor_truncation (List.replicate 18 0) []
    ⟨128, 6, 1, 0, 0, 9⟩ .Default .Idle ⟨false, 0, 0⟩
    (by simp) (by simp) rfl rfl rfl rfl).1 rfl
  simpa using h

/-- C9 witness: a write attempt while busy changes nothing and starts
nothing. -/
theorem c9_witness :
    bulkInWrite { busy := true, ptrReg := 5, maxcntReg := 7 } 9 11 =
      ({ busy := true, ptrReg := 5, maxcntReg := 7 }, false) :=
  c9_bulk_in_busy.1 { busy := true, ptrReg := 5, maxcntReg := 7 } 9 11 rfl

end Xenon














